import Mathlib

/-!
Verification of the VTT-voice2text speech-segmentation pipeline.

This file embeds the core of the repository in Lean:
* `audio_engine.py` — VAD-driven speech segmentation (`_audio_callback`,
  `_emit_audio_chunk`, `start`, `stop`);
* `main.py` — the dictation controller state machine
  (`_toggle_listening`, `_panic_stop`, `_process_audio_chunk`,
  `_on_transcription_complete`, `_on_models_loaded`);
* `transcriber.py` — `Transcriber.transcribe`;
* `injector.py` — `TextInjector.inject` / `abort`.

Audio samples are modelled as rationals, wall-clock timestamps as
rationals (seconds), and the external black boxes (the VAD classifier,
the Whisper model, the keyboard) as explicit parameters.  Emission of an
utterance to the `on_audio_chunk` callback is modelled by returning the
emitted chunk.
-/

namespace VTT

/-- Audio-related configuration fields of `AppConfig` (config.py). -/
structure Config where
  sampleRate : ℕ
  silenceThresholdSec : ℚ
  minSpeechMs : ℕ
deriving DecidableEq, Repr

/-- The defaults from `config.py`: 16 kHz, 1.0 s silence threshold,
250 ms minimum speech duration. -/
def defaultConfig : Config :=
  { sampleRate := 16000, silenceThresholdSec := 1, minSpeechMs := 250 }

/-- `AudioEngine._vad_chunk_size`: VAD frame size, 512 samples. -/
def vadChunkSize : ℕ := 512

/-- `min_samples = int(config.min_speech_duration_ms * sample_rate / 1000)`
from `AudioEngine._emit_audio_chunk`. -/
def minSamples (cfg : Config) : ℕ :=
  cfg.minSpeechMs * cfg.sampleRate / 1000

/-- Duration of one VAD frame in seconds (512 samples at the configured
sample rate); 32 ms at 16 kHz. -/
def frameDuration (cfg : Config) : ℚ :=
  (vadChunkSize : ℚ) / (cfg.sampleRate : ℚ)

/-- One audio frame / chunk: a list of float samples, modelled as ℚ. -/
abbrev Chunk := List ℚ

/-- The segmentation state of `AudioEngine`: the accumulation buffer
(`_audio_buffer`, a deque of frames), the `_is_speaking` flag and the
`_silence_start_time` timestamp. -/
structure SegState where
  audioBuffer : List Chunk
  isSpeaking : Bool
  silenceStart : Option ℚ
deriving DecidableEq, Repr

/-- The segmentation state right after `AudioEngine.__init__` (or after
the reset in `start`). -/
def initSeg : SegState :=
  { audioBuffer := [], isSpeaking := false, silenceStart := none }

/-- `AudioEngine._emit_audio_chunk`: concatenate the buffer, clear all
segmentation state, and hand the chunk to the callback unless it is
shorter than `min_samples`.  The returned option is the chunk passed to
`on_audio_chunk` (if any). -/
def emitAudioChunk (cfg : Config) (s : SegState) : SegState × Option Chunk :=
  if s.audioBuffer = [] then (s, none)
  else
    let chunk := s.audioBuffer.flatten
    let s' := initSeg
    if chunk.length < minSamples cfg then (s', none)
    else (s', some chunk)

/-- The per-frame hysteresis step of `AudioEngine._audio_callback`
(lines 160–184): given the VAD verdict `isSpeech` for `frame` and the
current wall-clock time `now` (the value `time.time()` would return at
this point), update the segmentation state and possibly emit a chunk. -/
def processFrame (cfg : Config) (now : ℚ) (isSpeech : Bool) (frame : Chunk)
    (s : SegState) : SegState × Option Chunk :=
  if isSpeech then
    ({ audioBuffer := s.audioBuffer ++ [frame], isSpeaking := true,
       silenceStart := none }, none)
  else if s.isSpeaking then
    let s1 : SegState := { s with audioBuffer := s.audioBuffer ++ [frame] }
    match s.silenceStart with
    | none => ({ s1 with silenceStart := some now }, none)
    | some t0 =>
        if cfg.silenceThresholdSec ≤ now - t0 then emitAudioChunk cfg s1
        else (s1, none)
  else (s, none)

/-- One step of running a stream of pre-classified frames: the
accumulator carries the segmentation state and the list of chunks
emitted so far.  Each input is `(now, isSpeech, frame)`. -/
def stepRun (cfg : Config) (p : SegState × List Chunk)
    (inp : ℚ × Bool × Chunk) : SegState × List Chunk :=
  let r := processFrame cfg inp.1 inp.2.1 inp.2.2 p.1
  (r.1, p.2 ++ r.2.toList)

/-- Run the per-frame step over a list of classified frames, starting
from an arbitrary accumulator. -/
def runAux (cfg : Config) (inps : List (ℚ × Bool × Chunk))
    (p : SegState × List Chunk) : SegState × List Chunk :=
  inps.foldl (stepRun cfg) p

/-- Feed a list of classified frames `(now, isSpeech, frame)` to the
engine from state `s`; returns the final segmentation state and the
chunks emitted, in order. -/
def runFrames (cfg : Config) (inps : List (ℚ × Bool × Chunk))
    (s : SegState) : SegState × List Chunk :=
  runAux cfg inps (s, [])

/-- Frame `i` paired with its arrival time under the real-time capture
schedule, in which frame `i` is processed at time `i * frameDuration`
(frames arrive back to back from the microphone). -/
def timed (cfg : Config) (f : ℕ → Chunk) (i : ℕ) : ℚ × Chunk :=
  ((i : ℚ) * frameDuration cfg, f i)

/-- Frame `i` with its arrival time and its VAD classification in the
`N`-speech-then-silence scenarios: frames `0 ≤ i < N` are classified as
speech, later frames as silence. -/
def tagged (cfg : Config) (N : ℕ) (f : ℕ → Chunk) (i : ℕ) :
    ℚ × Bool × Chunk :=
  ((i : ℚ) * frameDuration cfg, decide (i < N), f i)

/-- The input stream of the end-to-end scenarios: `N` speech frames
followed by `M` silence frames, frame `i` carrying samples `f i`, with
the real-time capture schedule. -/
def idealInput (cfg : Config) (N M : ℕ) (f : ℕ → Chunk) :
    List (ℚ × Bool × Chunk) :=
  (List.range (N + M)).map (tagged cfg N f)

/-- Full engine state: `is_listening`, the segmentation state and the
`_pending_samples` carry-over buffer. -/
structure EngineState where
  isListening : Bool
  seg : SegState
  pending : List ℚ
deriving DecidableEq, Repr

/-- Engine state after `AudioEngine.__init__`. -/
def initEngine : EngineState :=
  { isListening := false, seg := initSeg, pending := [] }

/-- The `while len(pending) >= 512` loop of `AudioEngine._audio_callback`:
extract 512-sample frames from `pending`, classify each with the
black-box `classify`, and run the hysteresis step.  `times k` is the
wall-clock time at the `k`-th iteration. -/
def drainLoop (cfg : Config) (classify : Chunk → Bool) (times : ℕ → ℚ)
    (k : ℕ) (pending : List ℚ) (s : SegState) (outs : List Chunk) :
    List ℚ × SegState × List Chunk :=
  if h : vadChunkSize ≤ pending.length then
    let frame := pending.take vadChunkSize
    let rest := pending.drop vadChunkSize
    let r := processFrame cfg (times k) (classify frame) frame s
    drainLoop cfg classify times (k + 1) rest r.1 (outs ++ r.2.toList)
  else (pending, s, outs)
termination_by pending.length
decreasing_by
  simp only [List.length_drop]
  have h0 : 0 < vadChunkSize := by decide
  exact Nat.sub_lt (Nat.lt_of_lt_of_le h0 h) h0

/-- `AudioEngine._audio_callback` at block level: ignore the block when
not listening, otherwise append it to `_pending_samples` and drain whole
512-sample frames.  Returns the new engine state and the chunks emitted
to `on_audio_chunk` during this invocation. -/
def audioCallback (cfg : Config) (classify : Chunk → Bool) (times : ℕ → ℚ)
    (block : List ℚ) (e : EngineState) : EngineState × List Chunk :=
  if e.isListening = false then (e, [])
  else
    let r := drainLoop cfg classify times 0 (e.pending ++ block) e.seg []
    ({ e with pending := r.1, seg := r.2.1 }, r.2.2)

/-- `AudioEngine.start`: an immediate `True` when already listening
(skipping the reset), otherwise clear all segmentation state and start
the stream.  `streamOk` stands for whether `sd.InputStream` creation
succeeds. -/
def start (streamOk : Bool) (e : EngineState) : EngineState × Bool :=
  if e.isListening then (e, true)
  else
    let e1 : EngineState := { isListening := false, seg := initSeg, pending := [] }
    if streamOk then ({ e1 with isListening := true }, true)
    else (e1, false)

/-- `AudioEngine.stop`: when listening, clear `is_listening` and emit the
remaining buffer if it is non-empty and the engine was mid-speech. -/
def stop (cfg : Config) (e : EngineState) : EngineState × Option Chunk :=
  if e.isListening = false then (e, none)
  else
    let e1 : EngineState := { e with isListening := false }
    if e1.seg.audioBuffer ≠ [] ∧ e1.seg.isSpeaking = true then
      let r := emitAudioChunk cfg e1.seg
      ({ e1 with seg := r.1 }, r.2)
    else (e1, none)

/-! ### The dictation controller (main.py) -/

/-- `AppState` from main.py. -/
inductive AppState
  | loading
  | standby
  | listening
  | transcribing
deriving DecidableEq, Repr

/-- The controller-visible state of `VTTApplication` together with the
observable effects we track: `inFlight` counts transcription workers
started and not yet completed, `engineListening` mirrors
`audio_engine.is_listening`, `abortCalled` records whether
`injector.abort()` has been invoked, and `injected` is the list of texts
passed to `injector.inject`. -/
structure CtrlState where
  state : AppState
  modelsLoaded : Bool
  inFlight : ℕ
  engineListening : Bool
  abortCalled : Bool
  injected : List String
deriving DecidableEq, Repr

/-- Controller state at `VTTApplication.__init__`. -/
def initCtrl : CtrlState :=
  { state := .loading, modelsLoaded := false, inFlight := 0,
    engineListening := false, abortCalled := false, injected := [] }

/-- The events processed by the controller's (single-threaded) Qt event
loop: the toggle hotkey, the panic hotkey, an utterance arriving via
`audio_chunk_ready`, a transcription result arriving via
`transcription_complete`, and the model-loader finishing. -/
inductive Event
  | toggle
  | panic
  | utterance
  | complete (text : String)
  | modelsReady (ok : Bool)
deriving DecidableEq, Repr

/-- `VTTApplication._toggle_listening`. -/
def doToggle (s : CtrlState) : CtrlState :=
  if s.modelsLoaded = false then s
  else
    match s.state with
    | .standby => { s with state := .listening, engineListening := true }
    | .listening => { s with engineListening := false, state := .standby }
    | _ => s

/-- `VTTApplication._panic_stop`: abort injection, stop the engine,
return to standby. -/
def doPanic (s : CtrlState) : CtrlState :=
  { s with abortCalled := true, engineListening := false, state := .standby }

/-- `VTTApplication._process_audio_chunk`: drop the chunk unless
listening; otherwise enter `TRANSCRIBING` and start a worker. -/
def doUtterance (s : CtrlState) : CtrlState :=
  if s.state ≠ .listening then s
  else { s with state := .transcribing, inFlight := s.inFlight + 1 }

/-- `VTTApplication._on_transcription_complete`: inject the text when it
is non-empty, then return to `LISTENING` if the engine is still
listening, else `STANDBY`.  The finished worker is no longer in
flight. -/
def doComplete (text : String) (s : CtrlState) : CtrlState :=
  { s with
    inFlight := s.inFlight - 1,
    injected := s.injected ++ (if text = "" then [] else [text]),
    state := if s.engineListening then .listening else .standby }

/-- `VTTApplication._on_models_loaded`. -/
def doModelsReady (ok : Bool) (s : CtrlState) : CtrlState :=
  { s with modelsLoaded := ok,
           state := if ok then .standby else s.state }

/-- Dispatch one controller event. -/
def step (e : Event) (s : CtrlState) : CtrlState :=
  match e with
  | .toggle => doToggle s
  | .panic => doPanic s
  | .utterance => doUtterance s
  | .complete t => doComplete t s
  | .modelsReady ok => doModelsReady ok s

/-- Run a sequence of controller events. -/
def runCtrl (es : List Event) (s : CtrlState) : CtrlState :=
  es.foldl (fun a e => step e a) s

/-! ### The transcriber (transcriber.py) -/

/-- `Transcriber.transcribe`.  The Whisper call
`self.model.transcribe(...)` is a black box: `outcome = none` models it
raising an exception (caught and mapped to `""`), `outcome = some segs`
models it returning segments with texts `segs`; the function joins the
stripped segment texts with single spaces.  `isReady` and `hasModel`
mirror `self.is_ready` and `self.model is not None`. -/
def transcribe (isReady hasModel : Bool) (audio : Chunk)
    (outcome : Option (List String)) : String :=
  if isReady = false ∨ hasModel = false then ""
  else if audio.length = 0 then ""
  else
    match outcome with
    | none => ""
    | some segs => String.intercalate " " (segs.map String.trim)

/-! ### The text injector (injector.py) -/

/-- The flags of `TextInjector`. -/
structure InjState where
  isTyping : Bool
  abortFlag : Bool
deriving DecidableEq, Repr

/-- `TextInjector.inject`.  `abortAt = some k` models a concurrent
`abort()` being observed just before the `k`-th character is typed;
`abortAt = none` models no abort during this call.  Returns the new
flag state, the boolean result, and the characters actually typed. -/
def inject (abortAt : Option ℕ) (st : InjState) (text : String)
    (addTrailingSpace : Bool) : InjState × Bool × List Char :=
  if text = "" then (st, true, [])
  else if st.isTyping = true then (st, false, [])
  else
    let t := text.trim
    if t = "" then ({ isTyping := false, abortFlag := false }, true, [])
    else
      let t2 := (if addTrailingSpace then t ++ " " else t).toList
      match abortAt with
      | none => ({ isTyping := false, abortFlag := false }, true, t2)
      | some k =>
          if k < t2.length then
            ({ isTyping := false, abortFlag := true }, false, t2.take k)
          else ({ isTyping := false, abortFlag := false }, true, t2)

/-- `TextInjector.abort`. -/
def abort (st : InjState) : InjState :=
  { st with abortFlag := true }

/-- A concrete frame family for the end-to-end scenarios: every frame is
512 zero samples. -/
def constFrames : ℕ → Chunk := fun _ => List.replicate vadChunkSize 0

/-- The controller invariant behind the at-most-one-in-flight property:
at most one transcription worker is running, and none is running unless
the state is `TRANSCRIBING`. -/
def ctrlInv (s : CtrlState) : Prop :=
  s.inFlight ≤ 1 ∧ (s.state ≠ .transcribing → s.inFlight = 0)

/-! ### Basic lemmas about the segmentation step -/

theorem processFrame_speech (cfg : Config) (now : ℚ) (frame : Chunk)
    (s : SegState) :
    processFrame cfg now true frame s =
      ({ audioBuffer := s.audioBuffer ++ [frame], isSpeaking := true,
         silenceStart := none }, none) := rfl

theorem processFrame_silence_idle (cfg : Config) (now : ℚ) (frame : Chunk)
    {s : SegState} (h : s.isSpeaking = false) :
    processFrame cfg now false frame s = (s, none) := by
  simp [processFrame, h]

theorem processFrame_silence_first (cfg : Config) (now : ℚ) (frame : Chunk)
    {s : SegState} (h1 : s.isSpeaking = true) (h2 : s.silenceStart = none) :
    processFrame cfg now false frame s =
      ({ s with audioBuffer := s.audioBuffer ++ [frame],
                silenceStart := some now }, none) := by
  simp [processFrame, h1, h2]

theorem processFrame_silence_wait (cfg : Config) (now : ℚ) (frame : Chunk)
    {s : SegState} {t0 : ℚ} (h1 : s.isSpeaking = true)
    (h2 : s.silenceStart = some t0)
    (h3 : now - t0 < cfg.silenceThresholdSec) :
    processFrame cfg now false frame s =
      ({ s with audioBuffer := s.audioBuffer ++ [frame] }, none) := by
  simp [processFrame, h1, h2, not_le.mpr h3]

theorem processFrame_silence_cross (cfg : Config) (now : ℚ) (frame : Chunk)
    {s : SegState} {t0 : ℚ} (h1 : s.isSpeaking = true)
    (h2 : s.silenceStart = some t0)
    (h3 : cfg.silenceThresholdSec ≤ now - t0) :
    processFrame cfg now false frame s =
      emitAudioChunk cfg { s with audioBuffer := s.audioBuffer ++ [frame] } := by
  simp [processFrame, h1, h2, h3]

theorem emitAudioChunk_emits (cfg : Config) {s : SegState}
    (h1 : s.audioBuffer ≠ [])
    (h2 : minSamples cfg ≤ s.audioBuffer.flatten.length) :
    emitAudioChunk cfg s = (initSeg, some s.audioBuffer.flatten) := by
  simp only [emitAudioChunk, if_neg h1, if_neg (not_lt.mpr h2)]

/-- The minimum-duration filter: whenever `_emit_audio_chunk` hands a
chunk to the callback, the chunk has at least `min_samples` samples. -/
theorem emitAudioChunk_min (cfg : Config) {s : SegState} {u : Chunk}
    (h : (emitAudioChunk cfg s).2 = some u) :
    minSamples cfg ≤ u.length := by
  by_cases hb : s.audioBuffer = []
  · simp only [emitAudioChunk, if_pos hb] at h
    exact absurd h (by simp)
  · by_cases hl : s.audioBuffer.flatten.length < minSamples cfg
    · simp only [emitAudioChunk, if_neg hb, if_pos hl] at h
      exact absurd h (by simp)
    · simp only [emitAudioChunk, if_neg hb, if_neg hl] at h
      have : s.audioBuffer.flatten = u := by
        simpa using h
      rw [← this]
      exact not_lt.mp hl

theorem processFrame_min (cfg : Config) {now : ℚ} {b : Bool} {frame : Chunk}
    {s : SegState} {u : Chunk}
    (h : (processFrame cfg now b frame s).2 = some u) :
    minSamples cfg ≤ u.length := by
  unfold processFrame at h
  split at h
  · simp at h
  · split at h
    · split at h
      · simp at h
      · split at h
        · exact emitAudioChunk_min cfg h
        · simp at h
    · simp at h

/-! ### Lemmas about running a stream of classified frames -/

theorem runAux_nil (cfg : Config) (p : SegState × List Chunk) :
    runAux cfg [] p = p := rfl

theorem runAux_cons (cfg : Config) (i : ℚ × Bool × Chunk)
    (l : List (ℚ × Bool × Chunk)) (p : SegState × List Chunk) :
    runAux cfg (i :: l) p = runAux cfg l (stepRun cfg p i) := rfl

theorem runAux_append (cfg : Config) (l1 l2 : List (ℚ × Bool × Chunk))
    (p : SegState × List Chunk) :
    runAux cfg (l1 ++ l2) p = runAux cfg l2 (runAux cfg l1 p) :=
  List.foldl_append ..

/-- Running a non-empty block of speech-classified frames appends them
all to the buffer, sets `_is_speaking` and clears the silence timer; no
chunk is emitted. -/
theorem runAux_speech (cfg : Config) (l : List (ℚ × Chunk)) (s : SegState)
    (acc : List Chunk) :
    runAux cfg (l.map (fun p => (p.1, true, p.2))) (s, acc) =
      ({ audioBuffer := s.audioBuffer ++ l.map Prod.snd,
         isSpeaking := if l = [] then s.isSpeaking else true,
         silenceStart := if l = [] then s.silenceStart else none }, acc) := by
  induction l generalizing s acc with
  | nil => simp [runAux_nil]
  | cons a l ih =>
      rw [List.map_cons, runAux_cons]
      simp only [stepRun, processFrame_speech, Option.toList_none,
        List.append_nil]
      rw [ih]
      simp

/-- Running silence-classified frames while mid-speech with the silence
timer already running, before the threshold is reached: the frames keep
accumulating and nothing is emitted. -/
theorem runAux_silence_wait (cfg : Config) (l : List (ℚ × Chunk)) :
    ∀ (s : SegState) (acc : List Chunk) (t0 : ℚ),
      s.isSpeaking = true → s.silenceStart = some t0 →
      (∀ p ∈ l, p.1 - t0 < cfg.silenceThresholdSec) →
      runAux cfg (l.map (fun p => (p.1, false, p.2))) (s, acc) =
        ({ s with audioBuffer := s.audioBuffer ++ l.map Prod.snd }, acc) := by
  induction l with
  | nil => intro s acc t0 h1 h2 h3; simp [runAux_nil]
  | cons a l ih =>
      intro s acc t0 h1 h2 h3
      rw [List.map_cons, runAux_cons]
      simp only [stepRun, processFrame_silence_wait cfg a.1 a.2 h1 h2
        (h3 a (List.mem_cons_self a l)), Option.toList_none, List.append_nil]
      rw [ih { s with audioBuffer := s.audioBuffer ++ [a.2] } acc t0 h1 h2
        (fun p hp => h3 p (List.mem_cons_of_mem a hp))]
      simp

/-- Silence frames arriving while `Idle` (not speaking) are dropped. -/
theorem runAux_silence_idle (cfg : Config) (l : List (ℚ × Chunk))
    {s : SegState} (acc : List Chunk) (h : s.isSpeaking = false) :
    runAux cfg (l.map (fun p => (p.1, false, p.2))) (s, acc) = (s, acc) := by
  induction l with
  | nil => rfl
  | cons a l ih =>
      rw [List.map_cons, runAux_cons]
      simp only [stepRun, processFrame_silence_idle cfg a.1 a.2 h,
        Option.toList_none, List.append_nil]
      exact ih

/-- Every chunk emitted while running classified frames comes out of
`_emit_audio_chunk`, hence has at least `min_samples` samples. -/
theorem runAux_min (cfg : Config) (l : List (ℚ × Bool × Chunk))
    (s : SegState) (acc : List Chunk) :
    ∀ u ∈ (runAux cfg l (s, acc)).2,
      u ∈ acc ∨ minSamples cfg ≤ u.length := by
  induction l generalizing s acc with
  | nil => intro u hu; exact Or.inl hu
  | cons a l ih =>
      intro u hu
      rw [runAux_cons] at hu
      rcases ih _ _ u (by
        simpa [stepRun] using hu) with h | h
      · rcases List.mem_append.mp h with h' | h'
        · exact Or.inl h'
        · right
          rcases ho : (processFrame cfg a.1 a.2.1 a.2.2 s).2 with _ | v
          · simp [ho] at h'
          · simp [ho] at h'
            subst h'
            exact processFrame_min cfg ho
      · exact Or.inr h

/-- Splitting a contiguous index block. -/
theorem range1_split (s m n : ℕ) :
    List.range' s (m + n) = List.range' s m ++ List.range' (s + m) n := by
  have h := List.range'_append s m n 1
  rw [Nat.one_mul] at h
  rw [Nat.add_comm m n, ← h]

/-! ### The end-to-end segmentation scenarios

In the real-time capture schedule frame `i` is handed to the VAD at
time `i * frameDuration`, so when the `j`-th consecutive silence frame
is processed, only `(j - 1) * frameDuration` seconds have elapsed since
`_silence_start_time` was set at the first silence frame.  At the
default configuration (`frameDuration = 32 ms`, threshold 1 s) the
silence path therefore fires at the 33rd silence frame, because
`32 * 32 ms = 1.024 s ≥ 1 s` while `31 * 32 ms = 0.992 s < 1 s`. -/

/-- Indices all below `N` are classified as speech. -/
theorem tagged_speech (cfg : Config) (N : ℕ) (f : ℕ → Chunk) (l : List ℕ)
    (h : ∀ i ∈ l, i < N) :
    l.map (tagged cfg N f) =
      (l.map (timed cfg f)).map (fun p => (p.1, true, p.2)) := by
  rw [List.map_map]
  exact List.map_congr_left fun i hi => by
    simp [tagged, timed, Function.comp, h i hi]

/-- Indices at or above `N` are classified as silence. -/
theorem tagged_silence (cfg : Config) (N : ℕ) (f : ℕ → Chunk) (l : List ℕ)
    (h : ∀ i ∈ l, ¬ i < N) :
    l.map (tagged cfg N f) =
      (l.map (timed cfg f)).map (fun p => (p.1, false, p.2)) := by
  rw [List.map_map]
  exact List.map_congr_left fun i hi => by
    simp [tagged, timed, Function.comp, h i hi]

theorem map_snd_timed (cfg : Config) (f : ℕ → Chunk) (l : List ℕ) :
    (l.map (timed cfg f)).map Prod.snd = l.map f := by
  rw [List.map_map]
  rfl

/-- `N ≥ 1` speech frames followed by `M` silence frames with
`1 ≤ M ≤ 32`: nothing is emitted, the engine is still mid-speech with
all `N + M` frames buffered and the silence timer running. -/
theorem runFrames_speech_silence_short (N M : ℕ) (f : ℕ → Chunk)
    (hN : 1 ≤ N) (hM1 : 1 ≤ M) (hM2 : M ≤ 32) :
    runFrames defaultConfig (idealInput defaultConfig N M f) initSeg =
      ({ audioBuffer := (List.range (N + M)).map f, isSpeaking := true,
         silenceStart := some ((N : ℚ) * frameDuration defaultConfig) },
       []) := by
  have hsplit : List.range' 0 (N + M) =
      List.range' 0 N ++ List.range' N 1 ++ List.range' (N + 1) (M - 1) := by
    rw [show N + M = N + (1 + (M - 1)) by omega, range1_split 0 N,
      Nat.zero_add, range1_split N 1, List.append_assoc]
  have hinput : idealInput defaultConfig N M f =
      (List.range' 0 N).map (tagged defaultConfig N f) ++
      [tagged defaultConfig N f N] ++
      (List.range' (N + 1) (M - 1)).map (tagged defaultConfig N f) := by
    rw [idealInput, List.range_eq_range', hsplit]
    simp [List.range'_one]
  have hA := tagged_speech defaultConfig N f (List.range' 0 N)
    (fun i hi => by have := List.mem_range'_1.mp hi; omega)
  have hC := tagged_silence defaultConfig N f (List.range' (N + 1) (M - 1))
    (fun i hi => by have := List.mem_range'_1.mp hi; omega)
  have hgN : tagged defaultConfig N f N =
      ((N : ℚ) * frameDuration defaultConfig, false, f N) := by
    simp [tagged]
  rw [runFrames, hinput, runAux_append, runAux_append, hA, runAux_speech]
  have hne : (List.range' 0 N).map (timed defaultConfig f) ≠ [] := by
    simp [List.range'_eq_nil]
    omega
  rw [if_neg hne, if_neg hne, map_snd_timed]
  simp only [initSeg, List.nil_append]
  rw [runAux_cons, runAux_nil]
  simp only [stepRun, hgN]
  rw [processFrame_silence_first defaultConfig
    ((N : ℚ) * frameDuration defaultConfig) (f N) rfl rfl]
  simp only [Option.toList_none, List.append_nil, List.nil_append]
  rw [hC]
  rw [runAux_silence_wait defaultConfig _ _ _
    ((N : ℚ) * frameDuration defaultConfig) rfl rfl ?cond]
  case cond =>
    intro p hp
    rcases List.mem_map.mp hp with ⟨i, hi, hpe⟩
    rcases List.mem_range'_1.mp hi with ⟨hi1, hi2⟩
    subst hpe
    have hiq : (i : ℚ) ≤ (N : ℚ) + 31 := by
      exact_mod_cast (show i ≤ N + 31 by omega)
    have hd : frameDuration defaultConfig = 4 / 125 := by
      norm_num [frameDuration, defaultConfig, vadChunkSize]
    show (i : ℚ) * frameDuration defaultConfig -
      (N : ℚ) * frameDuration defaultConfig < defaultConfig.silenceThresholdSec
    rw [hd]
    show _ < (1 : ℚ)
    nlinarith [hiq]
  rw [map_snd_timed]
  have hbufAll : (List.range' 0 N).map f ++ [f N] ++
      (List.range' (N + 1) (M - 1)).map f = (List.range (N + M)).map f := by
    rw [List.range_eq_range', hsplit]
    simp [List.range'_one]
  rw [List.append_assoc, ← List.append_assoc, hbufAll]

/-- A list of frames all of length `n` flattens to `n *` (number of
frames) samples. -/
theorem flatten_const_length {l : List Chunk} {n : ℕ}
    (h : ∀ fr ∈ l, fr.length = n) : l.flatten.length = n * l.length := by
  induction l with
  | nil => simp
  | cons a l ih =>
      simp only [List.flatten_cons, List.length_append, List.length_cons,
        h a (List.mem_cons_self a l),
        ih (fun fr hfr => h fr (List.mem_cons_of_mem a hfr))]
      ring

/-- `N ≥ 1` speech frames followed by `33 + K` silence frames of size
512: exactly one chunk is emitted — at the 33rd silence frame, when the
measured silence `32 * 32 ms = 1.024 s` first reaches the 1 s
threshold — containing the first `N + 33` frames; the remaining `K`
silence frames are dropped and the engine ends in the idle state. -/
theorem runFrames_speech_silence_long (N K : ℕ) (f : ℕ → Chunk)
    (hN : 1 ≤ N) (hf : ∀ i, (f i).length = vadChunkSize) :
    runFrames defaultConfig (idealInput defaultConfig N (33 + K) f) initSeg =
      (initSeg, [((List.range (N + 33)).map f).flatten]) := by
  have hsplit : List.range' 0 (N + (33 + K)) =
      List.range' 0 N ++ List.range' N 1 ++ List.range' (N + 1) 31 ++
      List.range' (N + 32) 1 ++ List.range' (N + 33) K := by
    rw [show N + (33 + K) = N + (1 + (31 + (1 + K))) by omega,
      range1_split 0 N, Nat.zero_add, range1_split N 1,
      range1_split (N + 1) 31, show N + 1 + 31 = N + 32 by omega,
      range1_split (N + 32) 1, show N + 32 + 1 = N + 33 by omega]
    simp [List.append_assoc]
  have hsplit33 : List.range' 0 (N + 33) =
      List.range' 0 N ++ List.range' N 1 ++ List.range' (N + 1) 31 ++
      List.range' (N + 32) 1 := by
    rw [show N + 33 = N + (1 + (31 + 1)) by omega,
      range1_split 0 N, Nat.zero_add, range1_split N 1,
      range1_split (N + 1) 31, show N + 1 + 31 = N + 32 by omega]
    simp [List.append_assoc]
  have hinput : idealInput defaultConfig N (33 + K) f =
      (List.range' 0 N).map (tagged defaultConfig N f) ++
      [tagged defaultConfig N f N] ++
      (List.range' (N + 1) 31).map (tagged defaultConfig N f) ++
      [tagged defaultConfig N f (N + 32)] ++
      (List.range' (N + 33) K).map (tagged defaultConfig N f) := by
    rw [idealInput, List.range_eq_range', hsplit]
    simp [List.range'_one]
  have hA := tagged_speech defaultConfig N f (List.range' 0 N)
    (fun i hi => by have := List.mem_range'_1.mp hi; omega)
  have hC := tagged_silence defaultConfig N f (List.range' (N + 1) 31)
    (fun i hi => by have := List.mem_range'_1.mp hi; omega)
  have hE := tagged_silence defaultConfig N f (List.range' (N + 33) K)
    (fun i hi => by have := List.mem_range'_1.mp hi; omega)
  have hgN : tagged defaultConfig N f N =
      ((N : ℚ) * frameDuration defaultConfig, false, f N) := by
    simp [tagged]
  have hgN32 : tagged defaultConfig N f (N + 32) =
      (((N : ℚ) + 32) * frameDuration defaultConfig, false, f (N + 32)) := by
    simp [tagged]
  have hd : frameDuration defaultConfig = 4 / 125 := by
    norm_num [frameDuration, defaultConfig, vadChunkSize]
  have e1 : runAux defaultConfig
      ((List.range' 0 N).map (tagged defaultConfig N f)) (initSeg, []) =
      ({ audioBuffer := (List.range' 0 N).map f, isSpeaking := true,
         silenceStart := none }, []) := by
    rw [hA, runAux_speech]
    have hne : (List.range' 0 N).map (timed defaultConfig f) ≠ [] := by
      simp [List.range'_eq_nil]
      omega
    rw [if_neg hne, if_neg hne, map_snd_timed]
    simp [initSeg]
  have e2 : runAux defaultConfig [tagged defaultConfig N f N]
      ({ audioBuffer := (List.range' 0 N).map f, isSpeaking := true,
         silenceStart := none }, []) =
      ({ audioBuffer := (List.range' 0 N).map f ++ [f N], isSpeaking := true,
         silenceStart := some ((N : ℚ) * frameDuration defaultConfig) },
       []) := by
    rw [runAux_cons, runAux_nil]
    simp only [stepRun, hgN]
    rw [processFrame_silence_first defaultConfig
      ((N : ℚ) * frameDuration defaultConfig) (f N) rfl rfl]
    simp
  have e3 : runAux defaultConfig
      ((List.range' (N + 1) 31).map (tagged defaultConfig N f))
      ({ audioBuffer := (List.range' 0 N).map f ++ [f N], isSpeaking := true,
         silenceStart := some ((N : ℚ) * frameDuration defaultConfig) },
       []) =
      ({ audioBuffer := (List.range' 0 N).map f ++ [f N] ++
           (List.range' (N + 1) 31).map f, isSpeaking := true,
         silenceStart := some ((N : ℚ) * frameDuration defaultConfig) },
       []) := by
    rw [hC]
    rw [runAux_silence_wait defaultConfig _ _ _
      ((N : ℚ) * frameDuration defaultConfig) rfl rfl ?cond]
    case cond =>
      intro p hp
      rcases List.mem_map.mp hp with ⟨i, hi, hpe⟩
      rcases List.mem_range'_1.mp hi with ⟨hi1, hi2⟩
      subst hpe
      have hiq : (i : ℚ) ≤ (N : ℚ) + 31 := by
        exact_mod_cast (show i ≤ N + 31 by omega)
      show (i : ℚ) * frameDuration defaultConfig -
        (N : ℚ) * frameDuration defaultConfig <
        defaultConfig.silenceThresholdSec
      rw [hd]
      show _ < (1 : ℚ)
      nlinarith [hiq]
    rw [map_snd_timed]
  have hbufD : ((List.range' 0 N).map f ++ [f N] ++
      (List.range' (N + 1) 31).map f) ++ [f (N + 32)] =
      (List.range (N + 33)).map f := by
    rw [List.range_eq_range', hsplit33]
    simp [List.range'_one, List.append_assoc]
  have e4 : runAux defaultConfig [tagged defaultConfig N f (N + 32)]
      ({ audioBuffer := (List.range' 0 N).map f ++ [f N] ++
           (List.range' (N + 1) 31).map f, isSpeaking := true,
         silenceStart := some ((N : ℚ) * frameDuration defaultConfig) },
       []) =
      (initSeg, [((List.range (N + 33)).map f).flatten]) := by
    rw [runAux_cons, runAux_nil]
    simp only [stepRun, hgN32]
    rw [processFrame_silence_cross defaultConfig
      (((N : ℚ) + 32) * frameDuration defaultConfig) (f (N + 32)) rfl rfl
      ?crossc]
    case crossc =>
      show defaultConfig.silenceThresholdSec ≤
        ((N : ℚ) + 32) * frameDuration defaultConfig -
        (N : ℚ) * frameDuration defaultConfig
      rw [hd]
      show (1 : ℚ) ≤ _
      ring_nf
      norm_num
    dsimp only
    rw [hbufD]
    rw [emitAudioChunk_emits defaultConfig ?bne ?bmin]
    case bne =>
      simp [List.range_eq_nil]
    case bmin =>
      have hlen : (((List.range (N + 33)).map f).flatten).length =
          vadChunkSize * ((List.range (N + 33)).map f).length := by
        refine flatten_const_length (fun fr hfr => ?_)
        rcases List.mem_map.mp hfr with ⟨i, _, rfl⟩
        exact hf i
      rw [hlen]
      simp only [List.length_map, List.length_range]
      have h1 : minSamples defaultConfig = 4000 := rfl
      have h2 : vadChunkSize = 512 := rfl
      rw [h1, h2]
      calc 4000 ≤ 512 * 33 := by norm_num
      _ ≤ 512 * (N + 33) := Nat.mul_le_mul_left 512 (by omega)
    simp
  have e5 : runAux defaultConfig
      ((List.range' (N + 33) K).map (tagged defaultConfig N f))
      (initSeg, [((List.range (N + 33)).map f).flatten]) =
      (initSeg, [((List.range (N + 33)).map f).flatten]) := by
    rw [hE]
    exact runAux_silence_idle defaultConfig _ _ rfl
  rw [runFrames, hinput, runAux_append, runAux_append, runAux_append,
    runAux_append, e1, e2, e3, e4, e5]

/-! ### Further lemmas: discarding, emitted-chunk shape, runFrames minimum -/

theorem emitAudioChunk_discards (cfg : Config) {s : SegState}
    (h1 : s.audioBuffer ≠ [])
    (h2 : s.audioBuffer.flatten.length < minSamples cfg) :
    emitAudioChunk cfg s = (initSeg, none) := by
  simp only [emitAudioChunk, if_neg h1, if_pos h2]

/-- An emitted chunk is always the flattened buffer, and the buffer was
non-empty. -/
theorem emitAudioChunk_some (cfg : Config) {s : SegState} {u : Chunk}
    (h : (emitAudioChunk cfg s).2 = some u) :
    u = s.audioBuffer.flatten ∧ s.audioBuffer ≠ [] := by
  by_cases hb : s.audioBuffer = []
  · simp only [emitAudioChunk, if_pos hb] at h
    exact absurd h (by simp)
  · by_cases hl : s.audioBuffer.flatten.length < minSamples cfg
    · simp only [emitAudioChunk, if_neg hb, if_pos hl] at h
      exact absurd h (by simp)
    · simp only [emitAudioChunk, if_neg hb, if_neg hl] at h
      have hu : s.audioBuffer.flatten = u := by simpa using h
      exact ⟨hu.symm, hb⟩

/-- `_emit_audio_chunk` leaves the buffer either untouched (nothing to
emit) or empty. -/
theorem emitAudioChunk_buffer (cfg : Config) (s : SegState) :
    (emitAudioChunk cfg s).1.audioBuffer = s.audioBuffer ∨
    (emitAudioChunk cfg s).1.audioBuffer = [] := by
  by_cases hb : s.audioBuffer = []
  · rw [emitAudioChunk, if_pos hb]
    exact Or.inl rfl
  · by_cases hl : s.audioBuffer.flatten.length < minSamples cfg
    · rw [emitAudioChunk, if_neg hb]
      exact Or.inr (by simp only [if_pos hl]; rfl)
    · rw [emitAudioChunk, if_neg hb]
      exact Or.inr (by simp only [if_neg hl]; rfl)

/-- Every chunk ever emitted while running classified frames meets the
minimum-duration requirement. -/
theorem runFrames_min (cfg : Config) (inps : List (ℚ × Bool × Chunk))
    (s : SegState) :
    ∀ u ∈ (runFrames cfg inps s).2, minSamples cfg ≤ u.length := by
  intro u hu
  rcases runAux_min cfg inps s [] u hu with h | h
  · simp at h
  · exact h

/-- The per-frame step keeps every buffered frame at the VAD frame
size. -/
theorem processFrame_frames_inv (cfg : Config) (now : ℚ) (b : Bool)
    {frame : Chunk} {s : SegState}
    (hs : ∀ fr ∈ s.audioBuffer, fr.length = vadChunkSize)
    (hf : frame.length = vadChunkSize) :
    ∀ fr ∈ (processFrame cfg now b frame s).1.audioBuffer,
      fr.length = vadChunkSize := by
  have happ : ∀ fr ∈ s.audioBuffer ++ [frame], fr.length = vadChunkSize := by
    intro fr hfr
    rcases List.mem_append.mp hfr with h | h
    · exact hs fr h
    · rw [List.mem_singleton.mp h]
      exact hf
  unfold processFrame
  split
  · exact happ
  · split
    · split
      · exact happ
      · split
        · rcases emitAudioChunk_buffer cfg
            { s with audioBuffer := s.audioBuffer ++ [frame] } with h | h
          · rw [h]
            exact happ
          · rw [h]
            simp
        · exact happ
    · exact hs

/-- A chunk emitted by the per-frame step is a concatenation of whole
VAD frames: its length is a positive multiple of 512. -/
theorem processFrame_emit_flat (cfg : Config) (now : ℚ) (b : Bool)
    {frame : Chunk} {s : SegState} {u : Chunk}
    (hs : ∀ fr ∈ s.audioBuffer, fr.length = vadChunkSize)
    (hf : frame.length = vadChunkSize)
    (h : (processFrame cfg now b frame s).2 = some u) :
    vadChunkSize ∣ u.length ∧ 0 < u.length := by
  have happ : ∀ fr ∈ s.audioBuffer ++ [frame], fr.length = vadChunkSize := by
    intro fr hfr
    rcases List.mem_append.mp hfr with h' | h'
    · exact hs fr h'
    · rw [List.mem_singleton.mp h']
      exact hf
  unfold processFrame at h
  split at h
  · simp at h
  · split at h
    · split at h
      · simp at h
      · split at h
        · rcases emitAudioChunk_some cfg h with ⟨hu, _⟩
          have hlen : u.length =
              vadChunkSize * (s.audioBuffer ++ [frame]).length := by
            rw [hu]
            exact flatten_const_length happ
          constructor
          · exact ⟨_, hlen⟩
          · rw [hlen]
            have : 0 < (s.audioBuffer ++ [frame]).length := by simp
            have hv : 0 < vadChunkSize := by decide
            exact Nat.mul_pos hv this
        · simp at h
    · simp at h

/-- Invariant of the frame-extraction loop of `_audio_callback`: if all
buffered frames are whole VAD frames, then every chunk handed to the
callback has a length that is a positive multiple of 512, the buffer
invariant is maintained, and fewer than 512 samples remain pending. -/
theorem drainLoop_spec (cfg : Config) (classify : Chunk → Bool)
    (times : ℕ → ℚ) (k : ℕ) (pending : List ℚ) (s : SegState)
    (outs : List Chunk)
    (hs : ∀ fr ∈ s.audioBuffer, fr.length = vadChunkSize)
    (ho : ∀ u ∈ outs, vadChunkSize ∣ u.length ∧ 0 < u.length) :
    (∀ fr ∈ (drainLoop cfg classify times k pending s outs).2.1.audioBuffer,
        fr.length = vadChunkSize) ∧
    (∀ u ∈ (drainLoop cfg classify times k pending s outs).2.2,
        vadChunkSize ∣ u.length ∧ 0 < u.length) ∧
    (drainLoop cfg classify times k pending s outs).1.length <
      vadChunkSize := by
  rw [drainLoop]
  split
  · next h =>
      have hfr : (pending.take vadChunkSize).length = vadChunkSize := by
        simp only [List.length_take]
        omega
      refine drainLoop_spec cfg classify times (k + 1)
        (pending.drop vadChunkSize) _ _
        (processFrame_frames_inv cfg (times k)
          (classify (pending.take vadChunkSize)) hs hfr) ?_
      intro u hu
      rcases List.mem_append.mp hu with h' | h'
      · exact ho u h'
      · rcases he : (processFrame cfg (times k)
            (classify (pending.take vadChunkSize))
            (pending.take vadChunkSize) s).2 with _ | v
        · rw [he] at h'
          simp at h'
        · rw [he] at h'
          simp only [Option.toList_some, List.mem_singleton] at h'
          subst h'
          exact processFrame_emit_flat cfg (times k) _ hs hfr he
  · next h =>
      refine ⟨hs, ho, ?_⟩
      dsimp only
      omega
termination_by pending.length
decreasing_by
  rename_i h
  simp only [List.length_drop]
  have h0 : 0 < vadChunkSize := by decide
  exact Nat.sub_lt (Nat.lt_of_lt_of_le h0 h) h0

/-! ### Controller invariant lemmas -/

theorem ctrlInv_step (e : Event) (s : CtrlState) (hInv : ctrlInv s)
    (he : e ≠ .panic ∧ ∀ b, e ≠ .modelsReady b) : ctrlInv (step e s) := by
  obtain ⟨h1, h2⟩ := hInv
  cases e with
  | toggle =>
      simp only [step, doToggle]
      split
      · exact ⟨h1, h2⟩
      · rcases hst : s.state with _ | _ | _ | _
        · exact ⟨h1, h2⟩
        · have h0 : s.inFlight = 0 := h2 (by rw [hst]; simp)
          refine ⟨?_, fun _ => ?_⟩
          · show s.inFlight ≤ 1
            omega
          · show s.inFlight = 0
            exact h0
        · have h0 : s.inFlight = 0 := h2 (by rw [hst]; simp)
          refine ⟨?_, fun _ => ?_⟩
          · show s.inFlight ≤ 1
            omega
          · show s.inFlight = 0
            exact h0
        · exact ⟨h1, h2⟩
  | panic => exact absurd rfl he.1
  | utterance =>
      simp only [step, doUtterance]
      split
      · exact ⟨h1, h2⟩
      · next hne =>
          have hl : s.state = .listening := not_not.mp hne
          have h0 : s.inFlight = 0 := h2 (by rw [hl]; simp)
          refine ⟨?_, fun hc => absurd rfl hc⟩
          show s.inFlight + 1 ≤ 1
          omega
  | complete t =>
      refine ⟨?_, fun _ => ?_⟩
      · show s.inFlight - 1 ≤ 1
        omega
      · show s.inFlight - 1 = 0
        omega
  | modelsReady b => exact absurd rfl (he.2 b)

theorem ctrlInv_run (es : List Event) (s : CtrlState) (hInv : ctrlInv s)
    (hes : ∀ e ∈ es, e ≠ .panic ∧ ∀ b, e ≠ .modelsReady b) :
    ctrlInv (runCtrl es s) := by
  induction es generalizing s with
  | nil => exact hInv
  | cons e es ih =>
      exact ih (step e s)
        (ctrlInv_step e s hInv (hes e (List.mem_cons_self e es)))
        (fun e' he' => hes e' (List.mem_cons_of_mem e he'))

/-! ### The claims -/

/-- C1, counterexample to the claim as stated: feeding 40 speech frames
and then only 32 silence frames (under the real-time schedule) emits
nothing at all — the silence timer starts at the first silence frame, so
only `31 * 32 ms = 0.992 s < 1 s` of silence has been measured — and the
engine is still mid-speech rather than back in Idle. -/
theorem C1_counterexample :
    (runFrames defaultConfig (idealInput defaultConfig 40 32 constFrames)
      initSeg).2 = [] ∧
    (runFrames defaultConfig (idealInput defaultConfig 40 32 constFrames)
      initSeg).1.isSpeaking = true := by
  have h := runFrames_speech_silence_short 40 32 constFrames
    (by norm_num) (by norm_num) (by norm_num)
  rw [h]
  exact ⟨rfl, rfl⟩

/-- C1 (amended): with `N ≥ 1` speech frames followed by `M ≥ 33`
silence frames of 512 samples each, exactly one Utterance is emitted; it
contains the `N` speech frames and the first 33 silence frames — 33
being the least silence count whose measured elapsed time
`(33 - 1) * 32 ms = 1.024 s` reaches the 1 s threshold — and the
segmentation state returns to Idle.  In particular 40 speech + 33
silence frames yield one Utterance of `73 * 512 = 37376` samples. -/
theorem C1_theorem (N M : ℕ) (f : ℕ → Chunk) (hN : 1 ≤ N) (hM : 33 ≤ M)
    (hf : ∀ i, (f i).length = vadChunkSize) :
    runFrames defaultConfig (idealInput defaultConfig N M f) initSeg =
      (initSeg, [((List.range (N + 33)).map f).flatten]) ∧
    ((List.range (N + 33)).map f).flatten.length = (N + 33) * vadChunkSize := by
  obtain ⟨K, rfl⟩ : ∃ K, M = 33 + K := ⟨M - 33, by omega⟩
  refine ⟨runFrames_speech_silence_long N K f hN hf, ?_⟩
  have hlen := flatten_const_length (l := (List.range (N + 33)).map f)
    (n := vadChunkSize) (fun fr hfr => by
      rcases List.mem_map.mp hfr with ⟨i, _, rfl⟩
      exact hf i)
  rw [hlen]
  simp [Nat.mul_comm]

/-- C1, witness: the amended claim at `N = 40`, `M = 33` with constant
frames. -/
theorem C1_witness :
    (1 ≤ 40 ∧ 33 ≤ 33 ∧ (∀ i, (constFrames i).length = vadChunkSize)) ∧
    (runFrames defaultConfig (idealInput defaultConfig 40 33 constFrames)
       initSeg =
       (initSeg, [((List.range (40 + 33)).map constFrames).flatten]) ∧
     ((List.range (40 + 33)).map constFrames).flatten.length =
       (40 + 33) * vadChunkSize) :=
  ⟨⟨by norm_num, by norm_num, fun i => by simp [constFrames]⟩,
   C1_theorem 40 33 constFrames (by norm_num) (by norm_num)
     (fun i => by simp [constFrames])⟩

/-- C2, counterexample to the claim as stated: 5 speech frames followed
by 40 silence frames DO produce an Utterance — of `38 * 512 = 19456`
samples — because the finalized buffer also contains the 33 trailing
silence frames, so its sample count is far above
`min_samples = 4000`. -/
theorem C2_counterexample :
    ((runFrames defaultConfig (idealInput defaultConfig 5 40 constFrames)
      initSeg).2).map List.length = [19456] := by
  have h : runFrames defaultConfig (idealInput defaultConfig 5 40 constFrames)
      initSeg =
      (initSeg, [((List.range (5 + 33)).map constFrames).flatten]) :=
    runFrames_speech_silence_long 5 7 constFrames (by norm_num)
      (fun i => by simp [constFrames])
  rw [h]
  have hlen := flatten_const_length
    (l := (List.range (5 + 33)).map constFrames)
    (n := vadChunkSize) (fun fr hfr => by
      rcases List.mem_map.mp hfr with ⟨i, _, rfl⟩
      simp [constFrames])
  simp only [List.map_cons, List.map_nil, hlen]
  norm_num [vadChunkSize]

/-- C2 (amended): in the 5-speech + 40-silence scenario exactly one
Utterance of `38 * 512 = 19456` samples is emitted and the state returns
to Idle: the minimum-duration test is applied to the finalized buffer's
sample count — which includes the trailing silence frames, so it is not
a test of the speech run alone — and not to wall-clock elapsed time.
Every Utterance ever emitted has at least `min_samples` samples; shorter
finalized buffers are discarded, never emitted. -/
theorem C2_theorem (f : ℕ → Chunk) (hf : ∀ i, (f i).length = vadChunkSize) :
    (runFrames defaultConfig (idealInput defaultConfig 5 40 f) initSeg =
       (initSeg, [((List.range (5 + 33)).map f).flatten]) ∧
     ((List.range (5 + 33)).map f).flatten.length = 19456) ∧
    (∀ (cfg : Config) (inps : List (ℚ × Bool × Chunk)) (s : SegState),
       ∀ u ∈ (runFrames cfg inps s).2, minSamples cfg ≤ u.length) := by
  refine ⟨⟨runFrames_speech_silence_long 5 7 f (by norm_num) hf, ?_⟩,
    fun cfg inps s => runFrames_min cfg inps s⟩
  have hlen := flatten_const_length (l := (List.range (5 + 33)).map f)
    (n := vadChunkSize) (fun fr hfr => by
      rcases List.mem_map.mp hfr with ⟨i, _, rfl⟩
      exact hf i)
  rw [hlen]
  norm_num [vadChunkSize]

/-- C2, witness: the amended claim at the constant frame family. -/
theorem C2_witness :
    (∀ i, (constFrames i).length = vadChunkSize) ∧
    ((runFrames defaultConfig (idealInput defaultConfig 5 40 constFrames)
        initSeg =
        (initSeg, [((List.range (5 + 33)).map constFrames).flatten]) ∧
      ((List.range (5 + 33)).map constFrames).flatten.length = 19456) ∧
     (∀ (cfg : Config) (inps : List (ℚ × Bool × Chunk)) (s : SegState),
        ∀ u ∈ (runFrames cfg inps s).2, minSamples cfg ≤ u.length)) :=
  ⟨fun i => by simp [constFrames],
   C2_theorem constFrames (fun i => by simp [constFrames])⟩

/-- C3, counterexample to the claim as stated: after model load, toggle,
an utterance dispatch and a panic, a transcription result "hello" that
arrives later for the aborted session IS passed to
`InjectionPort.inject` — there is no request-id correlation in
`_on_transcription_complete`. -/
theorem C3_counterexample :
    (runCtrl [.modelsReady true, .toggle, .utterance, .panic,
      .complete "hello"] initCtrl).injected = ["hello"] ∧
    (runCtrl [.modelsReady true, .toggle, .utterance, .panic,
      .complete "hello"] initCtrl).state = .standby := ⟨rfl, rfl⟩

/-- C3 (amended): a panic in state Transcribing transitions the
controller to Standby and calls `abort()` on the injector; however a
transcription result with non-empty text that arrives later for the
aborted session IS passed to `InjectionPort.inject` (the controller has
no request-id correlation and injects any non-empty result). -/
theorem C3_theorem (s : CtrlState) (t : String) (h1 : s.state = .transcribing)
    (h2 : t ≠ "") :
    (step .panic s).state = .standby ∧
    (step .panic s).abortCalled = true ∧
    (step (.complete t) (step .panic s)).injected = s.injected ++ [t] := by
  refine ⟨rfl, rfl, ?_⟩
  show (doComplete t (doPanic s)).injected = s.injected ++ [t]
  simp [doComplete, doPanic, h2]

/-- C3, witness: the amended claim at a concrete transcribing state and
the result text "hello". -/
theorem C3_witness :
    ((⟨.transcribing, true, 1, false, false, []⟩ : CtrlState).state =
       .transcribing ∧ "hello" ≠ "") ∧
    ((step .panic (⟨.transcribing, true, 1, false, false, []⟩ : CtrlState)).state
       = .standby ∧
     (step .panic (⟨.transcribing, true, 1, false, false, []⟩ :
        CtrlState)).abortCalled = true ∧
     (step (.complete "hello") (step .panic
        (⟨.transcribing, true, 1, false, false, []⟩ : CtrlState))).injected =
       ([] : List String) ++ ["hello"]) :=
  ⟨⟨rfl, by decide⟩,
   C3_theorem ⟨.transcribing, true, 1, false, false, []⟩ "hello" rfl
     (by decide)⟩

/-- C4, counterexample to the claim as stated: over the event sequence
load, toggle, utterance, panic, toggle, utterance the controller starts
a second transcription worker while the first is still outstanding —
panic leaves Transcribing for Standby without cancelling the worker, and
the next listening session dispatches again, so two transcriptions are
in flight. -/
theorem C4_counterexample :
    (runCtrl [.modelsReady true, .toggle, .utterance, .panic, .toggle,
      .utterance] initCtrl).inFlight = 2 := rfl

/-- C4 (amended): in the absence of panic (and repeated model-load)
events the invariant holds: starting from any state with at most one
worker in flight and none unless Transcribing, after any prefix of
toggle / utterance-arrival / transcription-complete events the number of
in-flight transcriptions is at most 1 — utterances arriving while the
state is not Listening are not dispatched. -/
theorem C4_theorem (s : CtrlState) (es : List Event) (hInv : ctrlInv s)
    (hes : ∀ e ∈ es, e ≠ .panic ∧ ∀ b, e ≠ .modelsReady b) :
    ∀ j : ℕ, (runCtrl (es.take j) s).inFlight ≤ 1 := by
  intro j
  exact (ctrlInv_run (es.take j) s hInv
    (fun e he => hes e (List.take_subset j es he))).1

/-- C4, witness: the amended claim over a concrete three-event trace
from the freshly loaded standby state. -/
theorem C4_witness :
    (ctrlInv (⟨.standby, true, 0, false, false, []⟩ : CtrlState) ∧
     (∀ e ∈ ([.toggle, .utterance, .complete "hi"] : List Event),
        e ≠ Event.panic ∧ ∀ b, e ≠ Event.modelsReady b)) ∧
    ∀ j : ℕ, (runCtrl (([.toggle, .utterance, .complete "hi"] :
        List Event).take j)
      (⟨.standby, true, 0, false, false, []⟩ : CtrlState)).inFlight ≤ 1 :=
  ⟨⟨⟨by norm_num, fun _ => rfl⟩, by decide⟩,
   C4_theorem ⟨.standby, true, 0, false, false, []⟩
     [.toggle, .utterance, .complete "hi"] ⟨by norm_num, fun _ => rfl⟩
     (by decide)⟩

/-- C5: `stop()` called while listening, mid-speech and with a non-empty
buffer immediately finalizes: the buffered Utterance is emitted exactly
when its sample count meets `min_samples`, and is discarded otherwise;
in both cases the engine stops listening and the segmentation state is
cleared. -/
theorem C5_theorem (cfg : Config) (e : EngineState) (h1 : e.isListening = true)
    (h2 : e.seg.isSpeaking = true) (h3 : e.seg.audioBuffer ≠ []) :
    stop cfg e =
      ({ isListening := false, seg := initSeg, pending := e.pending },
       if minSamples cfg ≤ e.seg.audioBuffer.flatten.length
       then some e.seg.audioBuffer.flatten else none) := by
  have hni : ¬ (e.isListening = false) := by simp [h1]
  rw [stop, if_neg hni]
  dsimp only
  rw [if_pos ⟨h3, h2⟩]
  by_cases hm : minSamples cfg ≤ e.seg.audioBuffer.flatten.length
  · rw [if_pos hm]
    have hemit := emitAudioChunk_emits cfg h3 hm
    rw [show emitAudioChunk cfg ({ e with isListening := false } :
      EngineState).seg = (initSeg, some e.seg.audioBuffer.flatten) from hemit]
  · rw [if_neg hm]
    have hdisc := emitAudioChunk_discards cfg h3 (not_le.mp hm)
    rw [show emitAudioChunk cfg ({ e with isListening := false } :
      EngineState).seg = (initSeg, none) from hdisc]

/-- C5, witness: the claim at a concrete listening state with one
buffered frame. -/
theorem C5_witness :
    ((⟨true, ⟨[[1]], true, none⟩, []⟩ : EngineState).isListening = true ∧
     (⟨true, ⟨[[1]], true, none⟩, []⟩ : EngineState).seg.isSpeaking = true ∧
     (⟨true, ⟨[[1]], true, none⟩, []⟩ :
        EngineState).seg.audioBuffer ≠ []) ∧
    stop defaultConfig (⟨true, ⟨[[1]], true, none⟩, []⟩ : EngineState) =
      ({ isListening := false, seg := initSeg, pending := [] },
       if minSamples defaultConfig ≤ ([[(1 : ℚ)]].flatten).length
       then some ([[(1 : ℚ)]].flatten) else none) :=
  ⟨⟨rfl, rfl, by simp⟩,
   C5_theorem defaultConfig ⟨true, ⟨[[1]], true, none⟩, []⟩ rfl rfl
     (by simp)⟩

/-- C6: a toggle event while the controller is Transcribing is a
complete no-op — the state, the audio engine and the in-flight
transcription are all untouched. -/
theorem C6_theorem (s : CtrlState) (h : s.state = .transcribing) :
    step .toggle s = s := by
  simp [step, doToggle, h]

/-- C6, witness: the claim at a concrete transcribing state. -/
theorem C6_witness :
    (⟨.transcribing, true, 1, true, false, []⟩ : CtrlState).state =
      .transcribing ∧
    step .toggle (⟨.transcribing, true, 1, true, false, []⟩ : CtrlState) =
      ⟨.transcribing, true, 1, true, false, []⟩ :=
  ⟨rfl, C6_theorem ⟨.transcribing, true, 1, true, false, []⟩ rfl⟩

/-- C7: `transcribe` is total — a not-loaded model, empty input or a
transcription error all map to the empty string — and the controller
treats an empty result as valid: it returns to Listening (engine still
listening) or Standby without passing anything to the injector. -/
theorem C7_theorem (isReady hasModel : Bool) (audio : Chunk)
    (outcome : Option (List String)) (s : CtrlState)
    (h : isReady = false ∨ hasModel = false ∨ audio = [] ∨ outcome = none) :
    transcribe isReady hasModel audio outcome = "" ∧
    (step (.complete "") s).injected = s.injected ∧
    (step (.complete "") s).state =
      (if s.engineListening = true then .listening else .standby) := by
  refine ⟨?_, by simp [step, doComplete], by simp [step, doComplete]⟩
  unfold transcribe
  split
  · rfl
  · next hrm =>
      split
      · rfl
      · next hlen =>
          rcases h with h | h | h | h
          · exact absurd (Or.inl h) hrm
          · exact absurd (Or.inr h) hrm
          · exact absurd (by rw [h]; rfl) hlen
          · rw [h]

/-- C7, witness: the claim at a not-ready transcriber and a concrete
controller state. -/
theorem C7_witness :
    (false = false ∨ true = false ∨ ([(1 : ℚ)] : Chunk) = [] ∨
       (some ["hi"] : Option (List String)) = none) ∧
    (transcribe false true [(1 : ℚ)] (some ["hi"]) = "" ∧
     (step (.complete "")
        (⟨.transcribing, true, 1, true, false, []⟩ : CtrlState)).injected =
       ([] : List String) ∧
     (step (.complete "")
        (⟨.transcribing, true, 1, true, false, []⟩ : CtrlState)).state =
       (if (⟨.transcribing, true, 1, true, false, []⟩ :
          CtrlState).engineListening = true then .listening else .standby)) :=
  ⟨Or.inl rfl,
   C7_theorem false true [(1 : ℚ)] (some ["hi"])
     ⟨.transcribing, true, 1, true, false, []⟩ (Or.inl rfl)⟩

/-- C8, counterexample to the claim as stated: a call with EMPTY text
made while a previous `inject` is still running returns `True`, not
`False` — the empty-text early return precedes the busy check — though
it still produces no output. -/
theorem C8_counterexample :
    inject none ⟨true, false⟩ "" true = (⟨true, false⟩, true, []) := rfl

/-- C8 (amended): a call to `inject` made while a previous call is still
running produces no keyboard output and leaves the flags untouched; it
returns `False` whenever the text is non-empty (only the trivial
empty-text call returns `True`), so the outputs of two concurrent
`inject` calls never interleave. -/
theorem C8_theorem (abortAt : Option ℕ) (st : InjState) (text : String)
    (addSp : Bool) (h : st.isTyping = true) :
    inject abortAt st text addSp =
      (st, (if text = "" then true else false), []) := by
  by_cases ht : text = ""
  · simp [inject, ht]
  · simp [inject, ht, h]

/-- C8, witness: the amended claim at a busy injector and the text
"hi". -/
theorem C8_witness :
    (⟨true, false⟩ : InjState).isTyping = true ∧
    inject none ⟨true, false⟩ "hi" true =
      (⟨true, false⟩, (if ("hi" : String) = "" then true else false), []) :=
  ⟨rfl, C8_theorem none ⟨true, false⟩ "hi" true rfl⟩

/-- C9: provided every already-buffered frame is a whole 512-sample VAD
frame (true from start-up on), every chunk handed to `on_audio_chunk` by
the audio callback has a length that is a positive multiple of 512, and
after a callback while listening fewer than 512 samples — the sub-frame
remainder, which is never part of an emitted chunk — stay in the
carry-over buffer. -/
theorem C9_theorem (cfg : Config) (classify : Chunk → Bool) (times : ℕ → ℚ)
    (block : List ℚ) (e : EngineState)
    (hs : ∀ fr ∈ e.seg.audioBuffer, fr.length = vadChunkSize) :
    (∀ u ∈ (audioCallback cfg classify times block e).2,
        vadChunkSize ∣ u.length ∧ 0 < u.length) ∧
    (e.isListening = true →
      (audioCallback cfg classify times block e).1.pending.length <
        vadChunkSize) := by
  by_cases hl : e.isListening = false
  · rw [audioCallback, if_pos hl]
    refine ⟨by simp, fun hc => ?_⟩
    rw [hc] at hl
    exact absurd hl (by simp)
  · have hT := drainLoop_spec cfg classify times 0 (e.pending ++ block) e.seg
      [] hs (by simp)
    rw [audioCallback, if_neg hl]
    dsimp only
    exact ⟨hT.2.1, fun _ => hT.2.2⟩

/-- C9, witness: the claim at the fresh engine made listening, a
600-sample block and an always-speech classifier. -/
theorem C9_witness :
    (∀ fr ∈ ({ initEngine with isListening := true } :
        EngineState).seg.audioBuffer, fr.length = vadChunkSize) ∧
    ((∀ u ∈ (audioCallback defaultConfig (fun _ => true) (fun _ => 0)
        (List.replicate 600 0)
        ({ initEngine with isListening := true } : EngineState)).2,
        vadChunkSize ∣ u.length ∧ 0 < u.length) ∧
     (({ initEngine with isListening := true } :
         EngineState).isListening = true →
       (audioCallback defaultConfig (fun _ => true) (fun _ => 0)
         (List.replicate 600 0)
         ({ initEngine with isListening := true } :
           EngineState)).1.pending.length < vadChunkSize)) :=
  ⟨by simp [initEngine, initSeg],
   C9_theorem defaultConfig (fun _ => true) (fun _ => 0)
     (List.replicate 600 0) { initEngine with isListening := true }
     (by simp [initEngine, initSeg])⟩

/-- C10: `start()` called while the engine is already listening returns
`True` immediately and leaves the whole engine state — audio buffer,
speaking flag, silence timestamp and pending samples — unchanged; the
reset that `start()` normally performs is skipped. -/
theorem C10_theorem (ok : Bool) (e : EngineState) (h : e.isListening = true) :
    start ok e = (e, true) := by
  rw [start, if_pos h]

/-- C10, witness: the claim at a listening engine with a non-trivial
buffer, silence timestamp and pending samples. -/
theorem C10_witness :
    (⟨true, ⟨[[1]], true, some 5⟩, [2, 3]⟩ : EngineState).isListening =
      true ∧
    start true (⟨true, ⟨[[1]], true, some 5⟩, [2, 3]⟩ : EngineState) =
      (⟨true, ⟨[[1]], true, some 5⟩, [2, 3]⟩, true) :=
  ⟨rfl, C10_theorem true ⟨true, ⟨[[1]], true, some 5⟩, [2, 3]⟩ rfl⟩

end VTT
